import Mathlib

/-!
Lean model of the retrieval core of a RAG pipeline (`ragpipeline/retrieval.py`).

Modelling conventions:
* Python strings are `String`; lower-cased text and word lists are handled on
  the underlying `List Char`.
* Python `float` scores are modelled as `ℚ`, reading the literals `0.5`,
  `0.8`, `0.7` of the source as the exact rationals `1/2`, `4/5`, `7/10`.
* Fallible Python code (exceptions) is modelled with `Option` / `Except`:
  a raised exception is `none` / `.error`.
* The ChromaDB vector index is an external collaborator; the candidate list
  it returns (`raw_results` in `Retriever.search`) is a parameter of the
  model, and the existence of its on-disk directory is a `Bool` parameter
  of the constructor model.
-/

/-- A retrievable chunk: `page_content` plus the `source` entry of its
metadata mapping (the only metadata key the retrieval core reads). -/
structure Document where
  page_content : String
  source : String
  deriving DecidableEq

/-- Python `str.lower()` on the underlying character list (`Char.toLower`
is ASCII case folding, which is all the pipeline relies on). -/
def lowered (s : String) : List Char :=
  s.data.map Char.toLower

/-- Worker for Python `str.split()` with no separator: split on runs of
whitespace, producing no empty words. `acc` holds the current word reversed. -/
def pyWordsAux (acc : List Char) : List Char → List (List Char)
  | [] => if acc.isEmpty then [] else [acc.reverse]
  | c :: cs =>
    if c.isWhitespace then
      if acc.isEmpty then pyWordsAux [] cs else acc.reverse :: pyWordsAux [] cs
    else
      pyWordsAux (c :: acc) cs

/-- Python `text.split()` (no separator argument). -/
def pyWords (s : List Char) : List (List Char) :=
  pyWordsAux [] s

/-- Python `set(text.split())`, as a duplicate-free list; only its
cardinality and membership are used by the code. -/
def wordSet (s : List Char) : List (List Char) :=
  (pyWords s).dedup

/-- Python `needle in haystack` on strings: substring containment.
Like Python, the empty needle is contained in everything. -/
def containsSub (needle : List Char) : List Char → Bool
  | [] => needle.isEmpty
  | c :: cs => needle.isPrefixOf (c :: cs) || containsSub needle cs

/-- The local `query_words` of `Retriever._boost_score_for_keywords`:
`set(query.lower().split())`. -/
def queryWordSet (query : String) : List (List Char) :=
  wordSet (lowered query)

/-- The local `doc_words` of `Retriever._boost_score_for_keywords`:
`set(doc.page_content.lower().split())`. -/
def docWordSet (doc : Document) : List (List Char) :=
  wordSet (lowered doc.page_content)

/-- The local `common_words = query_words.intersection(doc_words)`. -/
def commonWords (doc : Document) (query : String) : List (List Char) :=
  (queryWordSet query).filter (fun w => w ∈ docWordSet doc)

/-- The word-overlap ratio `len(common_words) / len(query_words)` computed
by `Retriever._boost_score_for_keywords` (exact rational arithmetic). -/
def overlapRatio (doc : Document) (query : String) : ℚ :=
  ((commonWords doc query).length : ℚ) / ((queryWordSet query).length : ℚ)

/-- `Retriever._boost_score_for_keywords`.  Python evaluates
`len(common_words) / len(query_words)` and raises `ZeroDivisionError` when
`query_words` is empty and the substring test did not fire; the raised
exception is modelled as `none`. -/
def boost_score_for_keywords (doc : Document) (score : ℚ) (query : String) :
    Option ℚ :=
  if containsSub (lowered query) (lowered doc.page_content) then
    some (score * (1/2))
  else if (queryWordSet query).length = 0 then
    none
  else if overlapRatio doc query > 7/10 then
    some (score * (4/5))
  else
    some score

theorem isPrefixOf_eq (l₁ l₂ : List Char) :
    l₁.isPrefixOf l₂ = true ↔ l₁ <+: l₂ :=
  List.isPrefixOf_iff_prefix

theorem containsSub_iff (n : List Char) :
    ∀ h : List Char, containsSub n h = true ↔ n <:+: h := by
  intro h
  induction h with
  | nil =>
    simp only [containsSub, List.isEmpty_iff]
    constructor
    · rintro rfl
      exact ⟨[], [], rfl⟩
    · rintro ⟨s, t, hst⟩
      rcases List.append_eq_nil.mp hst with ⟨hsn, htn⟩
      rcases List.append_eq_nil.mp hsn with ⟨-, hn⟩
      exact hn
  | cons c cs ih =>
    simp only [containsSub, Bool.or_eq_true, ih, isPrefixOf_eq]
    constructor
    · rintro (⟨t, ht⟩ | ⟨s, t, hst⟩)
      · exact ⟨[], t, by simpa using ht⟩
      · exact ⟨c :: s, t, by simp [hst]⟩
    · rintro ⟨s, t, hst⟩
      cases s with
      | nil => exact Or.inl ⟨t, by simpa using hst⟩
      | cons a s' =>
        rcases List.cons.injEq .. ▸ hst with ⟨-, htl⟩
        exact Or.inr ⟨s', t, htl⟩

/-- C1 counterexample.  On the whitespace-only query `" "` against a chunk
whose content contains no whitespace, the substring test fails, the query
word set is empty, and the function raises `ZeroDivisionError` (`none`); it
returns none of the three outcomes the claim allows. -/
theorem boost_score_branch_structure_cex :
    boost_score_for_keywords ⟨"hello", "b.pdf"⟩ 1 " " ≠ some (1 * (1/2)) ∧
    boost_score_for_keywords ⟨"hello", "b.pdf"⟩ 1 " " ≠ some (1 * (4/5)) ∧
    boost_score_for_keywords ⟨"hello", "b.pdf"⟩ 1 " " ≠ some 1 := by
  refine ⟨?_, ?_, ?_⟩ <;>
    · show boost_score_for_keywords ⟨"hello", "b.pdf"⟩ 1 " " ≠ some _
      intro hcontra
      rw [show boost_score_for_keywords ⟨"hello", "b.pdf"⟩ 1 " " = none from rfl] at hcontra
      exact Option.noConfusion hcontra

/-- C1 (amended): when the lower-cased query occurs verbatim as a substring
of the lower-cased content the boost function returns `score * 0.5`,
unconditionally — this check is applied first and, when it fires, the
word-overlap check is skipped.  Otherwise, provided the lower-cased query's
whitespace-tokenized word set is nonempty, it returns `score * 0.8` if the
word-overlap ratio is strictly greater than `0.7`, and else the score
unchanged.  (With an empty word set and no substring match the function
instead raises `ZeroDivisionError`, see the counterexample.) -/
theorem boost_score_branch_structure (doc : Document) (score : ℚ)
    (query : String) :
    (lowered query <:+: lowered doc.page_content →
      boost_score_for_keywords doc score query = some (score * (1/2))) ∧
    (¬ lowered query <:+: lowered doc.page_content →
      queryWordSet query ≠ [] →
      boost_score_for_keywords doc score query =
        some (if overlapRatio doc query > 7/10 then score * (4/5)
          else score)) := by
  constructor
  · intro hin
    rw [boost_score_for_keywords, if_pos ((containsSub_iff _ _).mpr hin)]
  · intro hin hq
    have hsub : ¬ containsSub (lowered query) (lowered doc.page_content) = true :=
      fun h => hin ((containsSub_iff _ _).mp h)
    have hlen : ¬ (queryWordSet query).length = 0 := by
      simpa [List.length_eq_zero] using hq
    rw [boost_score_for_keywords, if_neg hsub, if_neg hlen]
    by_cases hr : overlapRatio doc query > 7/10
    · rw [if_pos hr, if_pos hr]
    · rw [if_neg hr, if_neg hr]

/-- C1 witness: on the query `"Cat"` and a chunk containing `"cat"` the
substring branch fires — with an empty-word-set-agnostic hypothesis — and
halves the score; on the query `"zzz"` and a disjoint chunk the
non-substring arm applies with its nonempty-word-set proviso. -/
theorem boost_score_branch_structure_witness :
    boost_score_for_keywords ⟨"the cat sat", "a.pdf"⟩ 1 "Cat" =
      some (1 * (1/2)) ∧
    boost_score_for_keywords ⟨"alpha beta", "a.pdf"⟩ 1 "zzz" =
      some (if overlapRatio ⟨"alpha beta", "a.pdf"⟩ "zzz" > 7/10
        then 1 * (4/5) else 1) :=
  ⟨(boost_score_branch_structure ⟨"the cat sat", "a.pdf"⟩ 1 "Cat").1
      (by decide),
    (boost_score_branch_structure ⟨"alpha beta", "a.pdf"⟩ 1 "zzz").2
      (by decide) (by decide)⟩

/-- C2: the code does raise a division-by-zero.  On the whitespace-only
query `"\t"` (empty word set) against content without whitespace, the
substring test fails and `len(common_words) / len(query_words)` raises
`ZeroDivisionError` (`none`) instead of treating the ratio as `0` and
returning the score unchanged (`some 2`). -/
theorem boost_zero_division_at_whitespace_query :
    boost_score_for_keywords ⟨"world", "a.pdf"⟩ 2 "\t" = none ∧
    (none : Option ℚ) ≠ some 2 := by
  exact ⟨rfl, fun h => Option.noConfusion h⟩

/-- C10: for a nonnegative original score, any value the boost function
returns is `0.5 * score`, `0.8 * score` or `score`, hence never exceeds the
original score. -/
theorem boost_score_never_increases (doc : Document) (score : ℚ)
    (query : String) (hs : 0 ≤ score) (r : ℚ)
    (h : boost_score_for_keywords doc score query = some r) :
    (r = score * (1/2) ∨ r = score * (4/5) ∨ r = score) ∧ r ≤ score := by
  rw [boost_score_for_keywords] at h
  split_ifs at h with h1 h2 h3
  · cases h
    exact ⟨Or.inl rfl, by nlinarith⟩
  · cases h
    exact ⟨Or.inr (Or.inl rfl), by nlinarith⟩
  · cases h
    exact ⟨Or.inr (Or.inr rfl), le_refl score⟩

/-- C10 witness: a query sharing no words with the chunk leaves the
(nonnegative) score `1` unchanged, and `1 ≤ 1`. -/
theorem boost_score_never_increases_witness :
    ((1 : ℚ) = 1 * (1/2) ∨ (1 : ℚ) = 1 * (4/5) ∨ (1 : ℚ) = 1) ∧
      (1 : ℚ) ≤ 1 := by
  refine boost_score_never_increases ⟨"alpha", "s.pdf"⟩ 1 "zzz"
    (by norm_num) 1 ?_
  have hr : ¬ overlapRatio ⟨"alpha", "s.pdf"⟩ "zzz" > 7/10 := by
    have hc : commonWords ⟨"alpha", "s.pdf"⟩ "zzz" = [] := by decide
    simp only [overlapRatio, hc, List.length_nil, Nat.cast_zero, zero_div]
    norm_num
  rw [boost_score_for_keywords, if_neg (by decide), if_neg (by decide),
    if_neg hr]

/-- The comparison key of `reranked_results.sort(key=lambda x: x[1])`:
ascending boosted score. -/
def byScore (a b : Document × ℚ) : Prop :=
  a.2 ≤ b.2

instance : DecidableRel byScore :=
  fun a b => inferInstanceAs (Decidable (a.2 ≤ b.2))

instance : IsTotal (Document × ℚ) byScore :=
  ⟨fun a b => le_total a.2 b.2⟩

instance : IsTrans (Document × ℚ) byScore :=
  ⟨fun _ _ _ h1 h2 => le_trans h1 h2⟩

/-- The boosting loop of `Retriever.search`: builds `reranked_results` in
candidate order; a raised `ZeroDivisionError` aborts the call (`none`). -/
def rerank (query : String) : List (Document × ℚ) → Option (List (Document × ℚ))
  | [] => some []
  | p :: rest =>
    match boost_score_for_keywords p.1 p.2 query, rerank query rest with
    | some ns, some tail => some ((p.1, ns) :: tail)
    | _, _ => none

/-- `Retriever.search`, with the candidate list `raw_results` returned by the
vector index abstracted as a parameter.  Python's `list.sort` is a stable
ascending sort, modelled by insertion sort on `byScore`; then candidates over
`score_threshold` are dropped and the list is truncated to `k`. -/
def search (raw_results : List (Document × ℚ)) (query : String) (k : ℕ)
    (score_threshold : ℚ) : Option (List (Document × ℚ)) :=
  match rerank query raw_results with
  | none => none
  | some reranked =>
    some (((List.insertionSort byScore reranked).filter
      (fun x => x.2 ≤ score_threshold)).take k)

theorem search_inv (raw : List (Document × ℚ)) (q : String) (k : ℕ) (t : ℚ)
    (res : List (Document × ℚ)) (h : search raw q k t = some res) :
    ∃ rr, rerank q raw = some rr ∧
      res = ((List.insertionSort byScore rr).filter
        (fun x => x.2 ≤ t)).take k := by
  unfold search at h
  cases hr : rerank q raw with
  | none =>
    rw [hr] at h
    exact Option.noConfusion h
  | some rr =>
    rw [hr] at h
    exact ⟨rr, rfl, (Option.some_inj.mp h).symm⟩

theorem rerank_map_fst (q : String) :
    ∀ raw rr : List (Document × ℚ), rerank q raw = some rr →
      rr.map Prod.fst = raw.map Prod.fst := by
  intro raw
  induction raw with
  | nil =>
    intro rr h
    obtain rfl : ([] : List (Document × ℚ)) = rr := Option.some_inj.mp h
    rfl
  | cons p ps ih =>
    intro rr h
    rw [rerank] at h
    cases hb : boost_score_for_keywords p.1 p.2 q with
    | none =>
      rw [hb] at h
      exact Option.noConfusion h
    | some ns =>
      rw [hb] at h
      cases hr : rerank q ps with
      | none =>
        rw [hr] at h
        exact Option.noConfusion h
      | some tail =>
        rw [hr] at h
        obtain rfl := Option.some_inj.mp h
        simp [ih tail hr]

/-- C3: every scored chunk returned by `search` is within the threshold. -/
theorem search_respects_threshold (raw : List (Document × ℚ)) (q : String)
    (k : ℕ) (t : ℚ) (res : List (Document × ℚ))
    (h : search raw q k t = some res) :
    ∀ p ∈ res, p.2 ≤ t := by
  obtain ⟨rr, -, rfl⟩ := search_inv raw q k t res h
  intro p hp
  have hp' : p ∈ (List.insertionSort byScore rr).filter (fun x => x.2 ≤ t) :=
    (List.take_sublist k _).subset hp
  simpa using List.of_mem_filter hp'

/-- C4: the result of `search` never has more than `k` entries. -/
theorem search_result_bounded (raw : List (Document × ℚ)) (q : String)
    (k : ℕ) (t : ℚ) (res : List (Document × ℚ)) (hk : 1 ≤ k)
    (h : search raw q k t = some res) :
    res.length ≤ k := by
  obtain ⟨rr, -, rfl⟩ := search_inv raw q k t res h
  exact List.length_take_le k _

theorem filter_score_orderedInsert (c : ℚ) (x : Document × ℚ) :
    ∀ l : List (Document × ℚ),
      (List.orderedInsert byScore x l).filter (fun y => y.2 = c) =
        (if x.2 = c then [x] else []) ++ l.filter (fun y => y.2 = c) := by
  intro l
  induction l with
  | nil =>
    by_cases hx : x.2 = c <;> simp [List.orderedInsert, hx]
  | cons y ys ih =>
    rw [List.orderedInsert]
    by_cases hxy : byScore x y
    · rw [if_pos hxy]
      by_cases hx : x.2 = c <;> by_cases hy : y.2 = c <;>
        simp [List.filter_cons, hx, hy]
    · rw [if_neg hxy]
      by_cases hx : x.2 = c <;> by_cases hy : y.2 = c
      · exact absurd (le_of_eq (hx.trans hy.symm)) hxy
      · simp [List.filter_cons, hx, hy, ih]
      · simp [List.filter_cons, hx, hy, ih]
      · simp [List.filter_cons, hx, hy, ih]

theorem filter_score_insertionSort (c : ℚ) :
    ∀ l : List (Document × ℚ),
      (List.insertionSort byScore l).filter (fun y => y.2 = c) =
        l.filter (fun y => y.2 = c) := by
  intro l
  induction l with
  | nil => rfl
  | cons x xs ih =>
    rw [List.insertionSort, filter_score_orderedInsert, ih]
    by_cases hx : x.2 = c <;> simp [List.filter_cons, hx]

/-- C5: the result of `search` is sorted ascending by boosted score, and for
every score value the result's entries with that score form a sublist (same
relative order) of the boosted candidate list `rr`, which lists candidates in
the order the vector index returned them: the sort is stable. -/
theorem search_sorted_and_stable (raw : List (Document × ℚ)) (q : String)
    (k : ℕ) (t : ℚ) (rr res : List (Document × ℚ))
    (hrr : rerank q raw = some rr) (h : search raw q k t = some res) :
    List.Sorted byScore res ∧
      ∀ c : ℚ, (res.filter (fun y => y.2 = c)).Sublist
        (rr.filter (fun y => y.2 = c)) := by
  obtain ⟨rr', hrr', rfl⟩ := search_inv raw q k t res h
  rw [hrr] at hrr'
  obtain rfl := Option.some_inj.mp hrr'
  constructor
  · have hs := List.sorted_insertionSort byScore rr
    exact List.Pairwise.sublist
      ((List.take_sublist k _).trans (List.filter_sublist _)) hs
  · intro c
    have h1 := List.Sublist.filter (fun y : Document × ℚ => y.2 = c)
      (List.take_sublist k
        ((List.insertionSort byScore rr).filter (fun x => x.2 ≤ t)))
    have h2 := List.Sublist.filter (fun y : Document × ℚ => y.2 = c)
      (@List.filter_sublist (Document × ℚ) (fun x => x.2 ≤ t)
        (List.insertionSort byScore rr))
    rw [filter_score_insertionSort] at h2
    exact h1.trans h2

/-- Two chunks are duplicates when they agree on content and on the
`source` metadata value. -/
def docDup (a b : Document) : Prop :=
  a.page_content = b.page_content ∧ a.source = b.source

/-- No two entries of the list carry duplicate chunks. -/
def noDupChunks (l : List (Document × ℚ)) : Prop :=
  l.Pairwise (fun x y => ¬ docDup x.1 y.1)

/-- C6 (amended): `search` introduces no duplicates, so its result is
duplicate-free whenever the candidate list handed back by the vector index
is (the code itself performs no deduplication). -/
theorem search_no_duplicate_chunks (raw : List (Document × ℚ)) (q : String)
    (k : ℕ) (t : ℚ) (res : List (Document × ℚ)) (hraw : noDupChunks raw)
    (h : search raw q k t = some res) :
    noDupChunks res := by
  obtain ⟨rr, hrr, rfl⟩ := search_inv raw q k t res h
  have hmap := rerank_map_fst q raw rr hrr
  have hrrdup : noDupChunks rr := by
    unfold noDupChunks at hraw ⊢
    have h1 : (raw.map Prod.fst).Pairwise (fun a b => ¬ docDup a b) :=
      List.pairwise_map.mpr hraw
    rw [← hmap] at h1
    exact List.pairwise_map.mp h1
  have hsym : ∀ {x y : Document × ℚ},
      ¬ docDup x.1 y.1 → ¬ docDup y.1 x.1 :=
    fun hxy hd => hxy ⟨hd.1.symm, hd.2.symm⟩
  have hsortdup : noDupChunks (List.insertionSort byScore rr) :=
    (List.Perm.pairwise_iff hsym (List.perm_insertionSort byScore rr)).mpr
      hrrdup
  exact List.Pairwise.sublist
    ((List.take_sublist k _).trans (List.filter_sublist _)) hsortdup

theorem boost_eval_no_overlap (doc : Document) (score : ℚ) (q : String)
    (h1 : containsSub (lowered q) (lowered doc.page_content) = false)
    (h2 : ¬ (queryWordSet q).length = 0)
    (h3 : commonWords doc q = []) :
    boost_score_for_keywords doc score q = some score := by
  have hr : ¬ overlapRatio doc q > 7/10 := by
    simp only [overlapRatio, h3, List.length_nil, Nat.cast_zero, zero_div]
    norm_num
  rw [boost_score_for_keywords, if_neg (by simp [h1]), if_neg h2, if_neg hr]

theorem rerank_pair_eval :
    rerank "zzz" [(⟨"alpha", "d.pdf"⟩, 1), (⟨"alpha", "d.pdf"⟩, 1)] =
      some [(⟨"alpha", "d.pdf"⟩, 1), (⟨"alpha", "d.pdf"⟩, 1)] := by
  have hb : boost_score_for_keywords ⟨"alpha", "d.pdf"⟩ 1 "zzz" = some 1 :=
    boost_eval_no_overlap _ _ _ (by decide) (by decide) (by decide)
  simp [rerank, hb]

/-- C6 counterexample.  If the vector index hands back the same chunk
twice, `search` returns it twice: the result is not duplicate-free. -/
theorem search_no_duplicate_chunks_cex :
    search [(⟨"alpha", "d.pdf"⟩, 1), (⟨"alpha", "d.pdf"⟩, 1)] "zzz" 2 1 =
      some [(⟨"alpha", "d.pdf"⟩, 1), (⟨"alpha", "d.pdf"⟩, 1)] ∧
    ¬ noDupChunks [(⟨"alpha", "d.pdf"⟩, 1), (⟨"alpha", "d.pdf"⟩, 1)] := by
  constructor
  · rw [search, rerank_pair_eval]
    simp [List.insertionSort, List.orderedInsert, byScore, List.filter_cons]
  · intro hcontra
    unfold noDupChunks at hcontra
    exact (List.pairwise_cons.mp hcontra).1 _ (List.mem_cons_self _ _)
      ⟨rfl, rfl⟩

theorem rerank_singleton_eval :
    rerank "zzz" [(⟨"alpha", "w.pdf"⟩, 1)] = some [(⟨"alpha", "w.pdf"⟩, 1)] := by
  have hb : boost_score_for_keywords ⟨"alpha", "w.pdf"⟩ 1 "zzz" = some 1 :=
    boost_eval_no_overlap _ _ _ (by decide) (by decide) (by decide)
  simp [rerank, hb]

theorem search_singleton_eval :
    search [(⟨"alpha", "w.pdf"⟩, 1)] "zzz" 1 1 =
      some [(⟨"alpha", "w.pdf"⟩, 1)] := by
  rw [search, rerank_singleton_eval]
  simp [List.insertionSort, List.orderedInsert, List.filter_cons]

/-- C3 witness: a concrete one-candidate search whose returned score `1` is
within the threshold `1`. -/
theorem search_respects_threshold_witness :
    (Document.mk "alpha" "w.pdf", (1 : ℚ)).2 ≤ (1 : ℚ) :=
  search_respects_threshold _ "zzz" 1 1 _ search_singleton_eval
    (Document.mk "alpha" "w.pdf", (1 : ℚ)) (List.mem_singleton.mpr rfl)

/-- C4 witness: a concrete one-candidate search with `k = 1` returns at
most one result. -/
theorem search_result_bounded_witness :
    ([(Document.mk "alpha" "w.pdf", (1 : ℚ))]).length ≤ 1 :=
  search_result_bounded _ "zzz" 1 1 _ (by decide) search_singleton_eval

/-- C5 witness: a concrete one-candidate search yields a sorted result
whose equal-score entries form a sublist of the boosted candidates. -/
theorem search_sorted_and_stable_witness :
    List.Sorted byScore [(Document.mk "alpha" "w.pdf", (1 : ℚ))] ∧
      (([(Document.mk "alpha" "w.pdf", (1 : ℚ))]).filter
          (fun y => y.2 = (1 : ℚ))).Sublist
        (([(Document.mk "alpha" "w.pdf", (1 : ℚ))]).filter
          (fun y => y.2 = (1 : ℚ))) :=
  ⟨(search_sorted_and_stable _ "zzz" 1 1 _ _ rerank_singleton_eval
      search_singleton_eval).1,
    (search_sorted_and_stable _ "zzz" 1 1 _ _ rerank_singleton_eval
      search_singleton_eval).2 1⟩

/-- C6 witness: a concrete duplicate-free one-candidate search returns a
duplicate-free result. -/
theorem search_no_duplicate_chunks_witness :
    noDupChunks [(Document.mk "alpha" "w.pdf", (1 : ℚ))] :=
  search_no_duplicate_chunks _ "zzz" 1 1 _ (by simp [noDupChunks])
    search_singleton_eval

/-- Error taxonomy of the retrieval core; `storeUnavailable` models the
`FileNotFoundError` raised by `Retriever.__init__` (the spec's
`StoreUnavailable`). -/
inductive RetrievalError
  | storeUnavailable
  deriving DecidableEq

/-- `Retriever.__init__`, abstracted over whether the persisted index
directory `VECTOR_DB_DIR` exists.  The constructor checks the directory and
raises before connecting to the store (connection modelled as `()`); the
`search` method is a separate function, so no search is involved. -/
def retrieverInit (vector_db_dir_exists : Bool) : Except RetrievalError Unit :=
  if vector_db_dir_exists then Except.ok ()
  else Except.error RetrievalError.storeUnavailable

/-- C7: constructing a Retriever against a nonexistent index location fails
with `storeUnavailable` at construction time. -/
theorem retrieverInit_store_unavailable :
    retrieverInit false = Except.error RetrievalError.storeUnavailable :=
  rfl

/-- C8: when the vector index returns zero candidates, `search` returns the
empty list as a non-error outcome, distinguishable from a failure (`none`). -/
theorem search_empty_candidates (q : String) (k : ℕ) (t : ℚ) :
    search [] q k t = some [] ∧ search [] q k t ≠ none := by
  have h : search [] q k t = some [] := by
    unfold search
    simp [rerank, List.insertionSort]
  exact ⟨h, by rw [h]; exact fun hc => Option.noConfusion hc⟩

/-- Modelled from the spec: the atomic steps of two concurrent strategy-B
(cross-encoder) `search` calls sharing one Retriever.  The cross-encoder
Retriever is exercised by `tests/test_retriever.py` but its implementation
is not in the repository snapshot; per the spec, each call first writes its
own `k` into the reranker's shared mutable `top_n`, then invokes the
pipeline, which truncates to the `top_n` it reads at that moment. -/
inductive SearchStep
  | setTopN1
  | setTopN2
  | invoke1
  | invoke2
  deriving DecidableEq

/-- Modelled from the spec: shared state of the two concurrent calls — the
reranker's `top_n` plus each call's (initially absent) result. -/
structure ConcState where
  top_n : ℕ
  res1 : Option (List ℕ)
  res2 : Option (List ℕ)
  deriving DecidableEq

/-- Modelled from the spec: effect of one atomic step.  `cands` is the
candidate list, already ordered descending by cross-encoder score, so the
pipeline invocation amounts to truncation to `top_n`. -/
def concStep (cands : List ℕ) (k1 k2 : ℕ) (s : ConcState) :
    SearchStep → ConcState
  | SearchStep.setTopN1 => { s with top_n := k1 }
  | SearchStep.setTopN2 => { s with top_n := k2 }
  | SearchStep.invoke1 => { s with res1 := some (cands.take s.top_n) }
  | SearchStep.invoke2 => { s with res2 := some (cands.take s.top_n) }

/-- Modelled from the spec: run one interleaving of the two calls' steps. -/
def runConc (cands : List ℕ) (k1 k2 : ℕ) (sched : List SearchStep) :
    ConcState :=
  sched.foldl (concStep cands k1 k2) ⟨0, none, none⟩

/-- C9: the race the spec's hazard section describes is real.  Under the
interleaving "call 1 sets `top_n := 2`; call 2 sets `top_n := 5`; call 1
invokes; call 2 invokes" — each call performing its own two steps in
order — the call that requested `k = 2` receives all 5 candidates: the
other call's truncation count leaked into its result, which is not bounded
by its own `k`. -/
theorem concurrent_topn_cross_contamination :
    (runConc [1, 2, 3, 4, 5] 2 5
        [SearchStep.setTopN1, SearchStep.setTopN2,
          SearchStep.invoke1, SearchStep.invoke2]).res1 =
      some [1, 2, 3, 4, 5] ∧ ¬ (5 : ℕ) ≤ 2 := by
  exact ⟨rfl, by decide⟩
